import Mathlib

/-!
Verification of the iFogSim results-visualization script
(`visualizer/plot_results.py`).

The script is a one-shot batch job: locate `results.csv`, load it, classify
metric columns by case-insensitive keyword substring search, and render one
annotated bar chart per classified metric (with a row-based fallback when no
metric column is found).  The definitions below are a shallow embedding of
that script: table cells become an inductive `Cell`, the pandas DataFrame
becomes `DataFrame` (ordered column names plus positionally aligned rows),
and each Python function becomes a Lean function of the same name.  Machine
floats are modelled as rationals; Python's `float(str)` coercion is modelled
for the plain decimal grammar (sign, digits, optional fraction), which is the
part exercised by CSV cell contents.
-/

/-- A scalar value held in one cell of the loaded table.  The constructor
records the runtime type pandas gives the value, because line 106's
`isinstance(val, (int, float))` distinguishes them: iterating a float64
column yields `numpy.float64` values, which subclass Python `float`
(`Cell.num`, modelled as `ℚ`); iterating an int64 column yields
`numpy.int64` values, which in Python 3 subclass neither `int` nor `float`
(`Cell.intv`); a column that fails numeric conversion keeps its fields as
strings (`Cell.str`). -/
inductive Cell where
  | num (q : ℚ)
  | intv (n : ℤ)
  | str (s : String)
deriving DecidableEq

/-- ASCII lower-casing of a string, modelling Python's `str.lower()` (the
keyword lists and column names exercised by the script are ASCII). -/
def lowerStr (s : String) : String :=
  String.mk (s.toList.map Char.toLower)

/-- `s.replace(" ", "_")` for the single-character pattern used by the
script: replace every space character by an underscore. -/
def replaceSpaces (s : String) : String :=
  String.mk (s.toList.map (fun c => if c == ' ' then '_' else c))

/-- Python's substring operator `needle in hay` on character lists: some
contiguous slice of `hay` equals `needle`. -/
def containsSub (hay needle : List Char) : Bool :=
  (List.range (hay.length + 1)).any (fun i => (hay.drop i).take needle.length == needle)

/-- Whitespace stripped by Python's `float(str)` before parsing. -/
def isSpaceCh (c : Char) : Bool :=
  c == ' ' || c == '\t' || c == '\n' || c == '\r'

/-- Strip leading and trailing whitespace from a character list. -/
def trimChars (l : List Char) : List Char :=
  ((l.dropWhile isSpaceCh).reverse.dropWhile isSpaceCh).reverse

/-- Numeric value of a list of decimal digit characters. -/
def natOfDigits (l : List Char) : Nat :=
  l.foldl (fun a c => a * 10 + (c.toNat - 48)) 0

/-- `str(n)` for an integer-typed value such as `numpy.int64`: the plain
decimal string, with a leading minus sign when negative. -/
def intStr (n : ℤ) : String :=
  (if n < 0 then "-" else "") ++ toString n.natAbs

/-- Parse an unsigned decimal literal (`"100"`, `"5."`, `".5"`, `"3.25"`);
anything else fails.  Models the core grammar accepted by Python's
`float(str)` (the exponent/`inf`/`nan` forms never arise from the script's
CSV cells). -/
def parseUnsigned? (u : List Char) : Option ℚ :=
  let ip := u.takeWhile Char.isDigit
  let rest := u.dropWhile Char.isDigit
  match rest with
  | [] => if ip.isEmpty then none else some ((natOfDigits ip : ℚ))
  | '.' :: fr =>
      if fr.all Char.isDigit && !(ip.isEmpty && fr.isEmpty) then
        some ((natOfDigits ip : ℚ) + Rat.divInt (natOfDigits fr) ((10 ^ fr.length : ℕ) : ℤ))
      else none
  | _ => none

/-- Python's `float(str)`: strip whitespace, optional sign, decimal literal. -/
def parsePyFloat? (s : String) : Option ℚ :=
  match trimChars s.toList with
  | '-' :: u => (parseUnsigned? u).map (fun q => -q)
  | '+' :: u => parseUnsigned? u
  | u => parseUnsigned? u

/-- `float(cell)`: a float- or integer-typed cell converts to its numeric
value; a string cell is parsed (raising, i.e. `none`, on failure). -/
def pyFloat? : Cell → Option ℚ
  | Cell.num q => some q
  | Cell.intv n => some (n : ℚ)
  | Cell.str s => parsePyFloat? s

/-- `str(cell)` as applied to the first column of a row.  For a string cell
this is the string itself; for an integer-typed cell it is the plain decimal
string.  For a float-typed cell CPython renders a decimal form such as
`"100.0"`; we render the rational's canonical form, which likewise contains
no letters — the only property the (lower-case alphabetic) keyword matching
depends on. -/
def Cell.pyStr : Cell → String
  | Cell.num q => toString q
  | Cell.intv n => intStr n
  | Cell.str s => s

/-- The loaded table: ordered column names and ordered rows, each row a list
of cells positionally aligned with the columns (column names are assumed
unique, as pandas keyword access requires). -/
structure DataFrame where
  columns : List String
  rows : List (List Cell)
deriving DecidableEq

/-- `data[col].values`: the full ordered sequence of the named column's
cells (first occurrence of the name, one cell per row). -/
def DataFrame.colValues (df : DataFrame) (c : String) : List Cell :=
  df.rows.map (fun r => r.getD (df.columns.indexOf c) (Cell.str ""))

/-- Whether one column name matches the keyword list: its lower-cased name
contains some lower-cased keyword as a substring (`plot_results.py`, inner
loop of `find_column`). -/
def colMatches (keywords : List String) (col : String) : Bool :=
  keywords.any (fun keyword => containsSub (lowerStr col).toList (lowerStr keyword).toList)

/-- `find_column(df, keywords)` (`plot_results.py` lines 54-61): scan the
columns in order and return the first whose lower-cased name contains some
lower-cased keyword as a substring; `None` if no column matches. -/
def find_column : List String → List String → Option String
  | [], _ => none
  | col :: rest, keywords =>
      if colMatches keywords col then some col else find_column rest keywords

/-- Output path stem (lines 117 and 194): the metric's display name with
spaces replaced by underscores, lower-cased, suffixed `_graph.png`. -/
def outputFileName (metric_name : String) : String :=
  lowerStr (replaceSpaces metric_name) ++ "_graph.png"

/-- Python's truthiness test `if col:` on an optional string: `None` and the
empty string are falsy. -/
def truthy : Option String → Bool
  | none => false
  | some s => !s.isEmpty

/-- `f'{val:.2f}'` rounds half to even at the second decimal; the floor of a
rational, computed on its normalised numerator and denominator. -/
def ratFloor (q : ℚ) : ℤ :=
  q.num.fdiv q.den

/-- Round a rational to the nearest integer, ties to even (the rounding used
when formatting with `'%.2f'`). -/
def roundHalfEven (q : ℚ) : ℤ :=
  let f := ratFloor q
  let r := q - (f : ℚ)
  if r < mkRat 1 2 then f
  else if mkRat 1 2 < r then f + 1
  else if f % 2 = 0 then f else f + 1

/-- The two decimal digit characters of `r < 100` (tens digit then ones
digit). -/
def twoDigitChars (r : Nat) : List Char :=
  [Char.ofNat (48 + r / 10), Char.ofNat (48 + r % 10)]

/-- `f'{val:.2f}'`: value formatted with exactly two digits after the
decimal point. -/
def formatTwoDec (q : ℚ) : String :=
  let n := roundHalfEven (q * 100)
  let m := n.natAbs
  (if n < 0 then "-" else "") ++ toString (m / 100) ++ "." ++ String.mk (twoDigitChars (m % 100))

/-- The per-bar value text (line 106):
`f'{val:.2f}' if isinstance(val, (int, float)) else str(val)`.
A float-typed cell (`numpy.float64` subclasses `float`) passes the
`isinstance` check and is formatted to two decimals; an integer-typed cell
(`numpy.int64` subclasses neither `int` nor `float` in Python 3) fails it
and is rendered with `str(val)`, as is a string cell. -/
def annotate : Cell → String
  | Cell.num q => formatTwoDec q
  | Cell.intv n => intStr n
  | Cell.str s => s

/-- `"Config 1", "Config 2", …`: labels synthesized by position
(lines 94, 96 and 160). -/
def synthLabels (n : Nat) : List Cell :=
  (List.range n).map (fun i => Cell.str ("Config " ++ toString (i + 1)))

/-- One rendered bar chart: the drawing and `savefig` side effects recorded
as data (metric display name, plotted values in row order, category labels,
per-bar value texts, axis/title/color parameters, output file name). -/
structure Chart where
  metric_name : String
  values : List Cell
  labels : List Cell
  valueTexts : List String
  ylabel : String
  title : String
  color : String
  output_file : String
deriving DecidableEq

/-- The chart built by `create_bar_graph` once `metric_col` has been found
(lines 84-119): values are the metric column's full ordered cell sequence;
labels come from the dataset's first column when it is distinct from the
metric column and there is more than one column, else are synthesized; each
bar's text is its value annotated per line 106; the output file name is
derived from the display name. -/
def mkColumnChart (df : DataFrame) (metric_name metric_col ylabel title color : String) :
    Chart :=
  let values := df.colValues metric_col
  let labels :=
    if df.columns.length > 1 then
      if df.columns.headD "" ≠ metric_col then df.colValues (df.columns.headD "")
      else synthLabels values.length
    else synthLabels values.length
  { metric_name := metric_name
    values := values
    labels := labels
    valueTexts := values.map annotate
    ylabel := ylabel
    title := title
    color := color
    output_file := outputFileName metric_name }

/-- `create_bar_graph(data, metric_name, keywords, ylabel, title, color)`
(lines 64-121): re-resolve the metric column with `find_column`; warn and
render nothing when it is absent, else produce the chart. -/
def create_bar_graph (df : DataFrame) (metric_name : String) (keywords : List String)
    (ylabel title color : String) : Option Chart :=
  match find_column df.columns keywords with
  | none => none
  | some metric_col => some (mkColumnChart df metric_name metric_col ylabel title color)

/-- The metric-keywords dictionary of the row-based fallback (lines
131-136), in insertion order. -/
def metric_keywords : List (String × List String) :=
  [("Execution Time", ["execution", "time", "exec"]),
   ("Delay", ["delay"]),
   ("Energy", ["energy", "power"]),
   ("Network Usage", ["network", "usage", "bandwidth"])]

/-- Whether a row's first-column text, lower-cased, contains some keyword
(the keywords in the dictionary are already lower case, and line 144 does
not lower them again). -/
def rowMatches (row : List Cell) (kws : List String) : Bool :=
  kws.any (fun kw => containsSub (lowerStr (Cell.pyStr (row.headD (Cell.str "")))).toList kw.toList)

/-- The numeric series extracted from a list of cells (lines 146-152): each
cell is coerced with `float`, and a cell whose coercion fails is silently
skipped. -/
def numericSeries (cells : List Cell) : List ℚ :=
  cells.filterMap pyFloat?

/-- Python-dict assignment `metric_rows[metric] = values` on an insertion-
ordered association list: overwrite in place when the key is present, else
append. -/
def updateAssoc (m : List (String × List ℚ)) (k : String) (v : List ℚ) :
    List (String × List ℚ) :=
  if m.any (fun p => p.1 == k) then m.map (fun p => if p.1 == k then (k, v) else p)
  else m ++ [(k, v)]

/-- Python-dict lookup on the insertion-ordered association list. -/
def lookupA (k : String) : List (String × List ℚ) → Option (List ℚ)
  | [] => none
  | p :: r => if p.1 == k then some p.2 else lookupA k r

/-- The body of the inner loop over `metric_keywords.items()` (lines
143-155): when the row's first-column text matches the metric's keywords,
extract the numeric series of the remaining cells and store it under the
metric — unless the series is empty. -/
def applyMetric (row : List Cell) (acc : List (String × List ℚ)) (p : String × List String) :
    List (String × List ℚ) :=
  if rowMatches row p.2 then
    let values := numericSeries (row.drop 1)
    if values.isEmpty then acc else updateAssoc acc p.1 values
  else acc

/-- One iteration of the outer loop over `data.iterrows()` (line 139). -/
def stepRow (acc : List (String × List ℚ)) (row : List Cell) : List (String × List ℚ) :=
  metric_keywords.foldl (applyMetric row) acc

/-- The `metric_rows` dictionary after scanning every row (lines 128-155). -/
def computeMetricRows (df : DataFrame) : List (String × List ℚ) :=
  df.rows.foldl stepRow []

/-- The per-metric bar color of the row-based path (lines 163-169),
defaulting to steel blue. -/
def color_map (m : String) : String :=
  if m == "Execution Time" then "steelblue"
  else if m == "Delay" then "green"
  else if m == "Energy" then "purple"
  else if m == "Network Usage" then "orange"
  else "steelblue"

/-- The per-metric y-axis label of the row-based path (lines 180-185),
defaulting to the metric name itself. -/
def ylabel_map (m : String) : String :=
  if m == "Execution Time" then "Execution Time (ms)"
  else if m == "Delay" then "Delay (ms)"
  else if m == "Energy" then "Energy Consumption (J)"
  else if m == "Network Usage" then "Network Usage (Bytes)"
  else m

/-- The chart drawn for one populated metric of the row-based path (lines
159-198): numeric values in extraction order, synthesized labels, value
texts always two-decimal formatted (line 177), the same output file naming
as the column path. -/
def mkRowChart (p : String × List ℚ) : Chart :=
  { metric_name := p.1
    values := p.2.map Cell.num
    labels := synthLabels p.2.length
    valueTexts := p.2.map formatTwoDec
    ylabel := ylabel_map p.1
    title := p.1 ++ " Comparison"
    color := color_map p.1
    output_file := outputFileName p.1 }

/-- `create_graphs_from_row_structure(data)` (lines 124-202): the charts
rendered (one per populated metric, in dictionary insertion order) and the
returned Boolean — `True` exactly when at least one metric was populated. -/
def create_graphs_from_row_structure (df : DataFrame) : List Chart × Bool :=
  let mr := computeMetricRows df
  (mr.map mkRowChart, !mr.isEmpty)

/-- The observable outcome of the script's main section (lines 204-251):
charts rendered, whether the format-guidance text of lines 238-247 was
printed, and the process exit status from this point on (this part of the
script never calls `exit`, so the status is 0). -/
structure RunResult where
  charts : List Chart
  formatGuidance : Bool
  exitCode : Nat

/-- The main section (lines 209-247): detect the four metric columns with
the module-level keyword lists; when any is truthy, render the column-based
charts (each `create_bar_graph` call re-resolving its column with the
call-site keyword list); otherwise run the row-based fallback, printing the
format guidance when it returns `False`. -/
def runVisualizer (df : DataFrame) : RunResult :=
  let execution_col := find_column df.columns ["execution", "time", "exec"]
  let delay_col := find_column df.columns ["delay"]
  let energy_col := find_column df.columns ["energy", "power"]
  let network_col := find_column df.columns ["network", "usage", "bandwidth"]
  if truthy execution_col || truthy delay_col || truthy energy_col || truthy network_col then
    { charts :=
        (if truthy execution_col then
          (create_bar_graph df "Execution Time" ["execution", "time"]
            "Execution Time (ms)" "Execution Time Comparison" "steelblue").toList
        else []) ++
        ((if truthy delay_col then
          (create_bar_graph df "Delay" ["delay"]
            "Delay (ms)" "Delay Comparison" "green").toList
        else []) ++
        ((if truthy energy_col then
          (create_bar_graph df "Energy" ["energy", "power"]
            "Energy Consumption (J)" "Energy Consumption Comparison" "purple").toList
        else []) ++
        (if truthy network_col then
          (create_bar_graph df "Network Usage" ["network", "usage"]
            "Network Usage (Bytes)" "Network Usage Comparison" "orange").toList
        else [])))
      formatGuidance := false
      exitCode := 0 }
  else
    let r := create_graphs_from_row_structure df
    { charts := r.1
      formatGuidance := !r.2
      exitCode := 0 }

/-- The candidate locations for `results.csv` (lines 15-19), in source
order; `os.path.join` on POSIX concatenates with `/`. -/
def possible_locations (project_root : String) : List String :=
  [project_root ++ "/results.csv",
   project_root ++ "/output/results.csv",
   project_root ++ "/results/results.csv"]

/-- The search loop of lines 21-25: the first location for which
`os.path.exists` holds, `None` when none exists. -/
def firstExisting (ex : String → Bool) : List String → Option String
  | [] => none
  | l :: rest => if ex l then some l else firstExisting ex rest

/-- Outcome of the locator stage: the located file, the locations printed by
the error message of lines 28-37 (empty when the file was found), and the
exit status forced at this stage (`some 1` from `exit(1)` on line 38). -/
structure LocateOutcome where
  csv_file : Option String
  printed_locations : List String
  exit_code : Option Nat

/-- Lines 15-38 as a function of the filesystem-existence predicate. -/
def locateStage (ex : String → Bool) (project_root : String) : LocateOutcome :=
  match firstExisting ex (possible_locations project_root) with
  | some f => { csv_file := some f, printed_locations := [], exit_code := none }
  | none =>
      { csv_file := none
        printed_locations := possible_locations project_root
        exit_code := some 1 }

/-- The one-row column-based dataset of the spec's worked example:
columns `[Config, Execution Time, Delay, Energy, Network Usage]`, row
`[Config1, 100, 50, 200, 1000]`.  The metric columns hold only integers, so
pandas loads them as int64 columns and iterating them yields `numpy.int64`
values (`Cell.intv`). -/
def dfFull : DataFrame :=
  { columns := ["Config", "Execution Time", "Delay", "Energy", "Network Usage"]
    rows := [[Cell.str "Config1", Cell.intv 100, Cell.intv 50, Cell.intv 200,
      Cell.intv 1000]] }

/-- A float-valued variant of the worked example (as produced by a CSV row
`Config1,100.0,50.0,200.0,1000.0`): the metric columns are float64, so their
values are `numpy.float64` (`Cell.num`). -/
def dfFullFloat : DataFrame :=
  { columns := ["Config", "Execution Time", "Delay", "Energy", "Network Usage"]
    rows := [[Cell.str "Config1", Cell.num 100, Cell.num 50, Cell.num 200, Cell.num 1000]] }

/-- A dataset whose only column name matches the detection keyword `exec`
but no render-time keyword. -/
def dfExec : DataFrame :=
  { columns := ["Exec"], rows := [[Cell.num 5]] }

/-- A row-based dataset in which two distinct rows match the `Delay`
keywords with different numeric series. -/
def dfRowsCE : DataFrame :=
  { columns := ["Metric", "Config1"]
    rows := [[Cell.str "Delay A", Cell.num 1], [Cell.str "Delay B", Cell.num 2]] }

/-- A dataset matching none of the metric keyword sets on either path. -/
def dfNone : DataFrame :=
  { columns := ["A", "B"], rows := [[Cell.str "x", Cell.str "y"]] }

/-- A row-based dataset whose single row matches the Delay keywords but
whose only data cell fails numeric coercion. -/
def dfEmptySeries : DataFrame :=
  { columns := ["Metric", "Config1"], rows := [[Cell.str "Delay", Cell.str "N/A"]] }

/-- A row that both matches the metric's keywords and yields a nonempty
numeric series — the only rows whose assignment on line 155 executes. -/
def goodRow (kws : List String) (row : List Cell) : Bool :=
  rowMatches row kws && !(numericSeries (row.drop 1)).isEmpty

/-- The numeric series of the last matching row with a nonempty series, in
row order (the dictionary value each later such row overwrites). -/
def lastGoodSeries (kws : List String) (rows : List (List Cell)) : Option (List ℚ) :=
  (rows.reverse.find? (goodRow kws)).map (fun r => numericSeries (r.drop 1))

/-- `fallback a b` is `a` when present, else `b`. -/
def fallback (a b : Option (List ℚ)) : Option (List ℚ) :=
  match a with
  | some v => some v
  | none => b

/-- The four metric display names, in dictionary order. -/
def metricNames : List String :=
  ["Execution Time", "Delay", "Energy", "Network Usage"]

/-! ## Helper lemmas -/

attribute [local semireducible] Rat.mul Rat.add Rat.sub

theorem containsSub_iff (hay needle : List Char) :
    containsSub hay needle = true ↔ ∃ l₁ l₂, hay = l₁ ++ needle ++ l₂ := by
  constructor
  · intro h
    unfold containsSub at h
    rw [List.any_eq_true] at h
    obtain ⟨i, hi, hbeq⟩ := h
    have heq : (hay.drop i).take needle.length = needle := by
      simpa using hbeq
    refine ⟨hay.take i, (hay.drop i).drop needle.length, ?_⟩
    conv_lhs => rw [← List.take_append_drop i hay]
    conv_lhs => rw [← List.take_append_drop needle.length (hay.drop i)]
    rw [heq, List.append_assoc]
  · rintro ⟨l₁, l₂, rfl⟩
    unfold containsSub
    rw [List.any_eq_true]
    refine ⟨l₁.length, ?_, ?_⟩
    · rw [List.mem_range]
      simp [List.length_append]
      omega
    · have h1 : (l₁ ++ needle ++ l₂).drop l₁.length = needle ++ l₂ := by
        rw [List.append_assoc, List.drop_left]
      rw [h1, List.take_left]
      simp

theorem colMatches_iff (keywords : List String) (col : String) :
    colMatches keywords col = true ↔
      ∃ kw ∈ keywords, ∃ l₁ l₂ : List Char,
        (lowerStr col).toList = l₁ ++ (lowerStr kw).toList ++ l₂ := by
  unfold colMatches
  rw [List.any_eq_true]
  constructor
  · rintro ⟨kw, hkw, h⟩
    exact ⟨kw, hkw, (containsSub_iff _ _).mp h⟩
  · rintro ⟨kw, hkw, h⟩
    exact ⟨kw, hkw, (containsSub_iff _ _).mpr h⟩

theorem find_column_eq_find (cols keywords : List String) :
    find_column cols keywords = cols.find? (colMatches keywords) := by
  induction cols with
  | nil => rfl
  | cons c r ih =>
      cases h : colMatches keywords c with
      | false => simp [find_column, h, List.find?_cons_of_neg, ih]
      | true => simp [find_column, h, List.find?_cons_of_pos]

theorem find_column_some (cols keywords : List String) (c : String)
    (h : find_column cols keywords = some c) :
    colMatches keywords c = true ∧
      ∃ l₁ l₂, cols = l₁ ++ c :: l₂ ∧ ∀ x ∈ l₁, colMatches keywords x = false := by
  induction cols with
  | nil => simp [find_column] at h
  | cons a r ih =>
      rw [find_column] at h
      by_cases ha : colMatches keywords a = true
      · rw [if_pos ha] at h
        obtain rfl : a = c := by injection h
        exact ⟨ha, [], r, rfl, by simp⟩
      · rw [if_neg ha] at h
        obtain ⟨hc, l₁, l₂, heq, hall⟩ := ih h
        refine ⟨hc, a :: l₁, l₂, by rw [heq, List.cons_append], ?_⟩
        intro x hx
        rcases List.mem_cons.mp hx with rfl | hx
        · exact Bool.eq_false_iff.mpr ha
        · exact hall x hx

theorem find_column_none_iff (cols keywords : List String) :
    find_column cols keywords = none ↔ ∀ c ∈ cols, colMatches keywords c = false := by
  induction cols with
  | nil => simp [find_column]
  | cons a r ih =>
      rw [find_column]
      by_cases ha : colMatches keywords a = true
      · simp [ha]
      · rw [if_neg ha]
        constructor
        · intro h c hc
          rcases List.mem_cons.mp hc with rfl | hc
          · exact Bool.eq_false_iff.mpr ha
          · exact (ih.mp h) c hc
        · intro h
          exact ih.mpr (fun c hc => h c (List.mem_cons_of_mem a hc))

theorem find_column_mem (cols keywords : List String) (c : String)
    (h : find_column cols keywords = some c) : c ∈ cols := by
  obtain ⟨-, l₁, l₂, heq, -⟩ := find_column_some cols keywords c h
  rw [heq]
  simp

theorem lookupA_map_replace (k : String) (v : List ℚ) (name : String)
    (h : name ≠ k) (m : List (String × List ℚ)) :
    lookupA name (m.map (fun p => if p.1 == k then (k, v) else p)) = lookupA name m := by
  induction m with
  | nil => rfl
  | cons p r ih =>
      by_cases hp : p.1 = k
      · have hb : (p.1 == k) = true := beq_iff_eq.mpr hp
        have hk : (k == name) = false := beq_eq_false_iff_ne.mpr (Ne.symm h)
        have hpn : (p.1 == name) = false := by
          rw [hp]
          exact hk
        rw [List.map_cons, if_pos hb]
        simp only [lookupA, hk, hpn]
        simpa using ih
      · have hb : ¬ ((p.1 == k) = true) := by
          simp [beq_eq_false_iff_ne.mpr hp]
        rw [List.map_cons, if_neg hb]
        simp only [lookupA]
        rw [ih]

theorem lookupA_append_ne (k : String) (v : List ℚ) (name : String)
    (h : name ≠ k) (m : List (String × List ℚ)) :
    lookupA name (m ++ [(k, v)]) = lookupA name m := by
  induction m with
  | nil =>
      have hk : (k == name) = false := beq_eq_false_iff_ne.mpr (Ne.symm h)
      simp [lookupA, hk]
  | cons p r ih => simp [lookupA, ih]

theorem lookupA_updateAssoc_ne (m : List (String × List ℚ)) (k : String) (v : List ℚ)
    (name : String) (h : name ≠ k) :
    lookupA name (updateAssoc m k v) = lookupA name m := by
  unfold updateAssoc
  split
  · exact lookupA_map_replace k v name h m
  · exact lookupA_append_ne k v name h m

theorem lookupA_map_replace_self (k : String) (v : List ℚ) (m : List (String × List ℚ))
    (h : m.any (fun p => p.1 == k) = true) :
    lookupA k (m.map (fun p => if p.1 == k then (k, v) else p)) = some v := by
  induction m with
  | nil => simp at h
  | cons p r ih =>
      by_cases hp : p.1 = k
      · have hb : (p.1 == k) = true := beq_iff_eq.mpr hp
        simp [hb, lookupA]
      · have hb : (p.1 == k) = false := beq_eq_false_iff_ne.mpr hp
        have hr : r.any (fun p => p.1 == k) = true := by
          rw [List.any_cons, hb] at h
          simpa using h
        have hpk : (p.1 == k) = false := hb
        simp only [List.map_cons, hb, Bool.false_eq_true, if_false, lookupA, hpk, ih hr]

theorem lookupA_append_self (k : String) (v : List ℚ) (m : List (String × List ℚ))
    (h : m.any (fun p => p.1 == k) = false) :
    lookupA k (m ++ [(k, v)]) = some v := by
  induction m with
  | nil => simp [lookupA]
  | cons p r ih =>
      rw [List.any_cons] at h
      have hp : (p.1 == k) = false := by
        cases hb : (p.1 == k) <;> simp [hb] at h ⊢
      have hr : r.any (fun p => p.1 == k) = false := by
        rw [hp] at h
        simpa using h
      simp [lookupA, hp, ih hr]

theorem lookupA_updateAssoc_self (m : List (String × List ℚ)) (k : String) (v : List ℚ) :
    lookupA k (updateAssoc m k v) = some v := by
  unfold updateAssoc
  split
  · exact lookupA_map_replace_self k v m (by assumption)
  · refine lookupA_append_self k v m ?_
    rename_i h
    exact Bool.eq_false_iff.mpr h

theorem lookupA_applyMetric_ne (name : String) (row : List Cell)
    (acc : List (String × List ℚ)) (p : String × List String) (h : name ≠ p.1) :
    lookupA name (applyMetric row acc p) = lookupA name acc := by
  simp only [applyMetric]
  cases hm : rowMatches row p.2 <;> cases he : (numericSeries (row.drop 1)).isEmpty <;>
    simp [lookupA_updateAssoc_ne acc p.1 (numericSeries (row.drop 1)) name h,
      lookupA_updateAssoc_ne acc p.1 (numericSeries (List.tail row)) name h]

theorem lookupA_applyMetric_eq (name : String) (kws : List String) (row : List Cell)
    (acc : List (String × List ℚ)) :
    lookupA name (applyMetric row acc (name, kws)) =
      if rowMatches row kws && !(numericSeries (row.drop 1)).isEmpty
      then some (numericSeries (row.drop 1))
      else lookupA name acc := by
  simp only [applyMetric]
  cases hm : rowMatches row kws <;> cases he : (numericSeries (row.drop 1)).isEmpty <;>
    simp [lookupA_updateAssoc_self]

theorem lookupA_stepRow (name : String) (kws : List String)
    (hmem : (name, kws) ∈ metric_keywords) (acc : List (String × List ℚ)) (row : List Cell) :
    lookupA name (stepRow acc row) =
      if rowMatches row kws && !(numericSeries (row.drop 1)).isEmpty
      then some (numericSeries (row.drop 1))
      else lookupA name acc := by
  simp only [metric_keywords, List.mem_cons, List.not_mem_nil, or_false, Prod.mk.injEq] at hmem
  rcases hmem with ⟨h1, h2⟩ | ⟨h1, h2⟩ | ⟨h1, h2⟩ | ⟨h1, h2⟩ <;> subst h1 <;> subst h2 <;>
    simp only [stepRow, metric_keywords, List.foldl_cons, List.foldl_nil]
  · rw [lookupA_applyMetric_ne _ _ _ _ (by decide),
      lookupA_applyMetric_ne _ _ _ _ (by decide),
      lookupA_applyMetric_ne _ _ _ _ (by decide),
      lookupA_applyMetric_eq]
  · rw [lookupA_applyMetric_ne _ _ _ _ (by decide),
      lookupA_applyMetric_ne _ _ _ _ (by decide),
      lookupA_applyMetric_eq,
      lookupA_applyMetric_ne _ _ _ _ (by decide)]
  · rw [lookupA_applyMetric_ne _ _ _ _ (by decide),
      lookupA_applyMetric_eq,
      lookupA_applyMetric_ne _ _ _ _ (by decide),
      lookupA_applyMetric_ne _ _ _ _ (by decide)]
  · rw [lookupA_applyMetric_eq,
      lookupA_applyMetric_ne _ _ _ _ (by decide),
      lookupA_applyMetric_ne _ _ _ _ (by decide),
      lookupA_applyMetric_ne _ _ _ _ (by decide)]

theorem findq_append {α : Type} (p : α → Bool) (l₁ l₂ : List α) :
    (l₁ ++ l₂).find? p =
      match l₁.find? p with
      | some a => some a
      | none => l₂.find? p := by
  induction l₁ with
  | nil => simp
  | cons a l ih =>
      cases h : p a with
      | true => simp [List.find?_cons_of_pos, h]
      | false => simp [List.find?_cons_of_neg, h, ih]

theorem lookupA_foldl (name : String) (kws : List String)
    (hmem : (name, kws) ∈ metric_keywords) (rows : List (List Cell)) :
    ∀ acc, lookupA name (rows.foldl stepRow acc) =
      fallback (lastGoodSeries kws rows) (lookupA name acc) := by
  induction rows with
  | nil => intro acc; rfl
  | cons r rs ih =>
      intro acc
      rw [List.foldl_cons, ih (stepRow acc r), lookupA_stepRow name kws hmem acc r]
      have hrev : lastGoodSeries kws (r :: rs) =
          match lastGoodSeries kws rs with
          | some v => some v
          | none => if goodRow kws r then some (numericSeries (r.drop 1)) else none := by
        unfold lastGoodSeries
        rw [List.reverse_cons, findq_append]
        cases hf : rs.reverse.find? (goodRow kws) with
        | some a => simp
        | none =>
            cases hg : goodRow kws r with
            | true => simp [List.find?_cons_of_pos, hg]
            | false => simp [List.find?_cons_of_neg, hg]
      rw [hrev]
      cases hl : lastGoodSeries kws rs with
      | some v => simp [fallback]
      | none =>
          cases hg : goodRow kws r with
          | true =>
              have hb : (rowMatches r kws && !(numericSeries (r.drop 1)).isEmpty) = true := hg
              rw [if_pos hb]
              rfl
          | false =>
              have hb : (rowMatches r kws && !(numericSeries (r.drop 1)).isEmpty) = false := hg
              rw [if_neg (by rw [hb]; simp)]
              rfl

theorem lookupA_computeMetricRows (df : DataFrame) (name : String) (kws : List String)
    (hmem : (name, kws) ∈ metric_keywords) :
    lookupA name (computeMetricRows df) = lastGoodSeries kws df.rows := by
  rw [computeMetricRows, lookupA_foldl name kws hmem df.rows []]
  cases h : lastGoodSeries kws df.rows <;> simp [fallback, lookupA]

theorem updateAssoc_mem (m : List (String × List ℚ)) (k : String) (v : List ℚ)
    (q : String × List ℚ) (hq : q ∈ updateAssoc m k v) : q.1 = k ∨ q ∈ m := by
  unfold updateAssoc at hq
  split at hq
  · obtain ⟨p, hp, hpq⟩ := List.mem_map.mp hq
    by_cases hpk : p.1 = k
    · left
      rw [← hpq]
      simp [beq_iff_eq.mpr hpk]
    · right
      rw [← hpq]
      simpa [beq_eq_false_iff_ne.mpr hpk] using hp
  · rcases List.mem_append.mp hq with h | h
    · exact Or.inr h
    · left
      rcases List.mem_singleton.mp h with rfl
      rfl

theorem applyMetric_mem (row : List Cell) (acc : List (String × List ℚ))
    (p : String × List String) (q : String × List ℚ) (hq : q ∈ applyMetric row acc p) :
    q.1 = p.1 ∨ q ∈ acc := by
  simp only [applyMetric] at hq
  split at hq
  · split at hq
    · exact Or.inr hq
    · exact updateAssoc_mem acc p.1 _ q hq
  · exact Or.inr hq

theorem foldl_applyMetric_mem (row : List Cell) :
    ∀ (ps : List (String × List String)) (acc : List (String × List ℚ))
      (q : String × List ℚ), q ∈ ps.foldl (applyMetric row) acc →
      (∃ p ∈ ps, q.1 = p.1) ∨ q ∈ acc := by
  intro ps
  induction ps with
  | nil => intro acc q hq; exact Or.inr hq
  | cons p ps ih =>
      intro acc q hq
      rw [List.foldl_cons] at hq
      rcases ih (applyMetric row acc p) q hq with ⟨p2, hp2, hname⟩ | hq2
      · exact Or.inl ⟨p2, List.mem_cons_of_mem p hp2, hname⟩
      · rcases applyMetric_mem row acc p q hq2 with hname | hacc
        · exact Or.inl ⟨p, List.mem_cons_self p ps, hname⟩
        · exact Or.inr hacc

theorem computeMetricRows_keys (df : DataFrame) (q : String × List ℚ)
    (hq : q ∈ computeMetricRows df) : q.1 ∈ metricNames := by
  unfold computeMetricRows at hq
  have main : ∀ (rows : List (List Cell)) (acc : List (String × List ℚ)),
      (∀ q2 ∈ acc, q2.1 ∈ metricNames) →
      ∀ q2 ∈ rows.foldl stepRow acc, q2.1 ∈ metricNames := by
    intro rows
    induction rows with
    | nil => intro acc hacc q2 hq2; exact hacc q2 hq2
    | cons r rs ih =>
        intro acc hacc q2 hq2
        rw [List.foldl_cons] at hq2
        refine ih (stepRow acc r) ?_ q2 hq2
        intro q3 hq3
        rcases foldl_applyMetric_mem r metric_keywords acc q3 hq3 with ⟨p, hp, hname⟩ | hq4
        · rw [hname]
          simp only [metric_keywords, List.mem_cons, List.not_mem_nil, or_false] at hp
          rcases hp with rfl | rfl | rfl | rfl <;> simp [metricNames]
        · exact hacc q3 hq4
  exact main df.rows [] (by simp) q hq

theorem updateAssoc_keys (m : List (String × List ℚ)) (k : String) (v : List ℚ) :
    (updateAssoc m k v).map Prod.fst =
      if m.any (fun p => p.1 == k) then m.map Prod.fst else m.map Prod.fst ++ [k] := by
  unfold updateAssoc
  split
  · rw [List.map_map]
    refine List.map_congr_left ?_
    intro p hp
    by_cases hpk : p.1 = k
    · simp [beq_iff_eq.mpr hpk, hpk, Function.comp]
    · simp [beq_eq_false_iff_ne.mpr hpk, Function.comp]
  · simp

theorem updateAssoc_keysNodup (m : List (String × List ℚ)) (k : String) (v : List ℚ)
    (h : (m.map Prod.fst).Nodup) : ((updateAssoc m k v).map Prod.fst).Nodup := by
  rw [updateAssoc_keys]
  split
  · exact h
  · rename_i hany
    have hk : k ∉ m.map Prod.fst := by
      intro hmem
      obtain ⟨p, hp, hpk⟩ := List.mem_map.mp hmem
      have : m.any (fun p => p.1 == k) = true :=
        List.any_eq_true.mpr ⟨p, hp, beq_iff_eq.mpr hpk⟩
      exact hany this
    rw [List.nodup_append]
    refine ⟨h, List.nodup_singleton k, ?_⟩
    intro a ha hb
    rcases List.mem_singleton.mp hb with rfl
    exact hk ha

theorem applyMetric_keysNodup (row : List Cell) (acc : List (String × List ℚ))
    (p : String × List String) (h : (acc.map Prod.fst).Nodup) :
    ((applyMetric row acc p).map Prod.fst).Nodup := by
  simp only [applyMetric]
  split
  · split
    · exact h
    · exact updateAssoc_keysNodup acc p.1 _ h
  · exact h

theorem stepRow_keysNodup (acc : List (String × List ℚ)) (row : List Cell)
    (h : (acc.map Prod.fst).Nodup) : ((stepRow acc row).map Prod.fst).Nodup := by
  unfold stepRow
  have main : ∀ (ps : List (String × List String)) (acc2 : List (String × List ℚ)),
      (acc2.map Prod.fst).Nodup → ((ps.foldl (applyMetric row) acc2).map Prod.fst).Nodup := by
    intro ps
    induction ps with
    | nil => intro acc2 h2; exact h2
    | cons p ps ih =>
        intro acc2 h2
        rw [List.foldl_cons]
        exact ih (applyMetric row acc2 p) (applyMetric_keysNodup row acc2 p h2)
  exact main metric_keywords acc h

theorem computeMetricRows_keysNodup (df : DataFrame) :
    ((computeMetricRows df).map Prod.fst).Nodup := by
  unfold computeMetricRows
  have main : ∀ (rows : List (List Cell)) (acc : List (String × List ℚ)),
      (acc.map Prod.fst).Nodup → ((rows.foldl stepRow acc).map Prod.fst).Nodup := by
    intro rows
    induction rows with
    | nil => intro acc h; exact h
    | cons r rs ih =>
        intro acc h
        rw [List.foldl_cons]
        exact ih (stepRow acc r) (stepRow_keysNodup acc r h)
  exact main df.rows [] (by simp)

theorem lookupA_eq_none_iff (name : String) (m : List (String × List ℚ)) :
    lookupA name m = none ↔ ∀ p ∈ m, p.1 ≠ name := by
  induction m with
  | nil => simp [lookupA]
  | cons p r ih =>
      rw [lookupA]
      by_cases hp : p.1 = name
      · simp [beq_iff_eq.mpr hp, hp]
      · simp only [beq_eq_false_iff_ne.mpr hp, Bool.false_eq_true, if_false, ih,
          List.mem_cons]
        constructor
        · intro h q hq
          rcases hq with rfl | hq
          · exact hp
          · exact h q hq
        · intro h q hq
          exact h q (Or.inr hq)

theorem lookupA_mem (name : String) (m : List (String × List ℚ)) (v : List ℚ)
    (h : lookupA name m = some v) : (name, v) ∈ m := by
  induction m with
  | nil => simp [lookupA] at h
  | cons p r ih =>
      rw [lookupA] at h
      by_cases hp : p.1 = name
      · rw [if_pos (beq_iff_eq.mpr hp)] at h
        obtain rfl : p.2 = v := by injection h
        rw [← hp]
        simp
      · rw [if_neg (by rw [beq_eq_false_iff_ne.mpr hp]; simp)] at h
        exact List.mem_cons_of_mem p (ih h)

theorem firstExisting_eq_find (ex : String → Bool) (ls : List String) :
    firstExisting ex ls = ls.find? ex := by
  induction ls with
  | nil => rfl
  | cons l rest ih =>
      cases h : ex l with
      | true => simp [firstExisting, h, List.find?_cons_of_pos]
      | false => simp [firstExisting, h, List.find?_cons_of_neg, ih]

theorem firstExisting_none_iff (ex : String → Bool) (ls : List String) :
    firstExisting ex ls = none ↔ ∀ l ∈ ls, ex l = false := by
  induction ls with
  | nil => simp [firstExisting]
  | cons l rest ih =>
      rw [firstExisting]
      by_cases h : ex l = true
      · simp [h]
      · rw [if_neg h, ih]
        constructor
        · intro hall x hx
          rcases List.mem_cons.mp hx with rfl | hx
          · exact Bool.eq_false_iff.mpr h
          · exact hall x hx
        · intro hall x hx
          exact hall x (List.mem_cons_of_mem l hx)

theorem firstExisting_some (ex : String → Bool) (ls : List String) (f : String)
    (h : firstExisting ex ls = some f) :
    ex f = true ∧ ∃ l₁ l₂, ls = l₁ ++ f :: l₂ ∧ ∀ x ∈ l₁, ex x = false := by
  induction ls with
  | nil => simp [firstExisting] at h
  | cons l rest ih =>
      rw [firstExisting] at h
      by_cases hl : ex l = true
      · rw [if_pos hl] at h
        obtain rfl : l = f := by injection h
        exact ⟨hl, [], rest, rfl, by simp⟩
      · rw [if_neg hl] at h
        obtain ⟨hex, l₁, l₂, heq, hall⟩ := ih h
        refine ⟨hex, l :: l₁, l₂, by rw [heq, List.cons_append], ?_⟩
        intro x hx
        rcases List.mem_cons.mp hx with rfl | hx
        · exact Bool.eq_false_iff.mpr hl
        · exact hall x hx

theorem locateStage_csv (ex : String → Bool) (root : String) :
    (locateStage ex root).csv_file = firstExisting ex (possible_locations root) := by
  unfold locateStage
  cases h : firstExisting ex (possible_locations root) <;> simp

/-! ## Claim theorems -/

/-- Claim C1: for every column list and keyword list, `find_column` returns
the first column (in column order) whose lower-cased name contains some
lower-cased keyword as a substring, and `none` when no column matches; it is
a pure function of its two arguments (stated via its agreement with
`List.find?` together with an explicit first-match decomposition). -/
theorem find_column_first_match (cols keywords : List String) :
    (∀ c, colMatches keywords c = true ↔
        ∃ kw ∈ keywords, ∃ l₁ l₂ : List Char,
          (lowerStr c).toList = l₁ ++ (lowerStr kw).toList ++ l₂)
    ∧ find_column cols keywords = cols.find? (colMatches keywords)
    ∧ (∀ c, find_column cols keywords = some c →
        colMatches keywords c = true ∧
          ∃ l₁ l₂, cols = l₁ ++ c :: l₂ ∧ ∀ x ∈ l₁, colMatches keywords x = false)
    ∧ (find_column cols keywords = none ↔ ∀ c ∈ cols, colMatches keywords c = false) :=
  ⟨fun c => colMatches_iff keywords c, find_column_eq_find cols keywords,
    fun c h => find_column_some cols keywords c h, find_column_none_iff cols keywords⟩

/-- Witness for C1 at a concrete column list and keyword list. -/
theorem find_column_first_match_witness :
    find_column ["Config", "Total Time"] ["execution", "time"] = some "Total Time"
    ∧ colMatches ["execution", "time"] "Total Time" = true := by
  have h := find_column_first_match ["Config", "Total Time"] ["execution", "time"]
  exact ⟨by decide, (h.2.2.1 "Total Time" (by decide)).1⟩

/-- Claim C5: the locator checks the three candidate paths
`<root>/results.csv`, `<root>/output/results.csv`, `<root>/results/results.csv`
in that fixed order and uses the first that exists; when none exists it
prints all three searched locations and exits with status 1. -/
theorem locator_first_existing (ex : String → Bool) (root : String) :
    possible_locations root =
      [root ++ "/results.csv", root ++ "/output/results.csv", root ++ "/results/results.csv"]
    ∧ (locateStage ex root).csv_file = (possible_locations root).find? ex
    ∧ ((∀ l ∈ possible_locations root, ex l = false) →
        (locateStage ex root).csv_file = none
        ∧ (locateStage ex root).printed_locations = possible_locations root
        ∧ (locateStage ex root).exit_code = some 1)
    ∧ (∀ f, (locateStage ex root).csv_file = some f →
        ex f = true ∧ (locateStage ex root).exit_code = none
        ∧ ∃ l₁ l₂, possible_locations root = l₁ ++ f :: l₂ ∧ ∀ x ∈ l₁, ex x = false) := by
  have hcsv := locateStage_csv ex root
  refine ⟨rfl, by rw [hcsv, firstExisting_eq_find], ?_, ?_⟩
  · intro hall
    have hnone : firstExisting ex (possible_locations root) = none :=
      (firstExisting_none_iff _ _).mpr hall
    unfold locateStage
    rw [hnone]
    exact ⟨rfl, rfl, rfl⟩
  · intro f hf
    rw [hcsv] at hf
    obtain ⟨hex, l₁, l₂, heq, hall⟩ := firstExisting_some ex (possible_locations root) f hf
    refine ⟨hex, ?_, l₁, l₂, heq, hall⟩
    unfold locateStage
    rw [hf]

/-- Witness for C5: a filesystem where only the second candidate exists, and
one where none exists. -/
theorem locator_first_existing_witness :
    (locateStage (fun s => s == "r/output/results.csv") "r").csv_file
      = some "r/output/results.csv"
    ∧ (locateStage (fun _ => false) "r").exit_code = some 1 := by
  have h1 := locator_first_existing (fun s => s == "r/output/results.csv") "r"
  have h2 := locator_first_existing (fun _ => false) "r"
  constructor
  · rw [h1.2.1]
    decide
  · exact (h2.2.2.1 (by decide)).2.2

/-- Claim C6: when the file parses but neither the column-based detection
nor the row-based fallback yields any metric, the run produces zero charts,
prints the format guidance, and exits with status 0. -/
theorem no_metric_guidance_exit_zero (df : DataFrame)
    (hexec : find_column df.columns ["execution", "time", "exec"] = none)
    (hdelay : find_column df.columns ["delay"] = none)
    (henergy : find_column df.columns ["energy", "power"] = none)
    (hnet : find_column df.columns ["network", "usage", "bandwidth"] = none)
    (hrow : computeMetricRows df = []) :
    (runVisualizer df).charts = []
    ∧ (runVisualizer df).formatGuidance = true
    ∧ (runVisualizer df).exitCode = 0 := by
  simp [runVisualizer, hexec, hdelay, henergy, hnet, truthy,
    create_graphs_from_row_structure, hrow]

/-- Witness for C6 at a dataset matching no metric on either path. -/
theorem no_metric_guidance_exit_zero_witness :
    (runVisualizer dfNone).charts = []
    ∧ (runVisualizer dfNone).formatGuidance = true
    ∧ (runVisualizer dfNone).exitCode = 0 :=
  no_metric_guidance_exit_zero dfNone (by decide) (by decide) (by decide) (by decide)
    (by decide)

/-- Claim C7: in the row-based extraction, a cell after the first that fails
numeric coercion is silently dropped from the metric's series and the
remaining cells are still extracted (the series of a row around a failing
cell is the series of the cells before it followed by the series of the
cells after it). -/
theorem coercion_failure_cell_dropped (first bad : Cell) (pre post : List Cell)
    (hbad : pyFloat? bad = none) :
    numericSeries ((first :: (pre ++ bad :: post)).drop 1)
      = numericSeries pre ++ numericSeries post := by
  simp [numericSeries, List.filterMap_append, List.filterMap_cons, hbad]

/-- Witness for C7: the non-numeric cell `"N/A"` is dropped while the cells
before and after it survive. -/
theorem coercion_failure_cell_dropped_witness :
    numericSeries ((Cell.str "Delay" :: ([Cell.num 1] ++ Cell.str "N/A" :: [Cell.num 2])).drop 1)
      = numericSeries [Cell.num 1] ++ numericSeries [Cell.num 2] :=
  coercion_failure_cell_dropped (Cell.str "Delay") (Cell.str "N/A")
    [Cell.num 1] [Cell.num 2] (by decide)

/-- Claim C8: in the column-based renderer, when the dataset's first column
is distinct from the metric column the first column's values are the
category labels (and the dataset necessarily has more than one column);
otherwise the labels are synthesized positionally as `Config 1`, `Config 2`,
…. -/
theorem renderer_label_choice (df : DataFrame) (keywords : List String)
    (name mc ylabel title color : String)
    (hfind : find_column df.columns keywords = some mc) :
    (df.columns.headD "" ≠ mc →
        df.columns.length > 1
        ∧ (mkColumnChart df name mc ylabel title color).labels
            = df.colValues (df.columns.headD ""))
    ∧ (df.columns.headD "" = mc →
        (mkColumnChart df name mc ylabel title color).labels
            = synthLabels (df.colValues mc).length) := by
  have hmem : mc ∈ df.columns := find_column_mem df.columns keywords mc hfind
  constructor
  · intro hne
    have hlen : df.columns.length > 1 := by
      match hc : df.columns with
      | [] =>
          rw [hc] at hmem
          simp at hmem
      | [a] =>
          rw [hc] at hmem
          rcases List.mem_singleton.mp hmem with rfl
          rw [hc] at hne
          simp at hne
      | a :: b :: rest =>
          simp only [List.length_cons]
          omega
    refine ⟨hlen, ?_⟩
    simp only [mkColumnChart]
    rw [if_pos hlen, if_pos hne]
  · intro heq
    by_cases hlen : df.columns.length > 1
    · simp only [mkColumnChart]
      rw [if_pos hlen, if_neg (not_not_intro heq)]
    · simp only [mkColumnChart]
      rw [if_neg hlen]

/-- Witness for C8 at the worked one-row dataset, for the Delay metric. -/
theorem renderer_label_choice_witness :
    dfFull.columns.length > 1
    ∧ (mkColumnChart dfFull "Delay" "Delay" "Delay (ms)" "Delay Comparison" "green").labels
        = dfFull.colValues (dfFull.columns.headD "") :=
  (renderer_label_choice dfFull ["delay"] "Delay" "Delay" "Delay (ms)" "Delay Comparison"
    "green" (by decide)).1 (by decide)

theorem create_bar_graph_some (df : DataFrame) (name : String) (kws : List String)
    (yl ti co c : String) (h : find_column df.columns kws = some c) :
    create_bar_graph df name kws yl ti co = some (mkColumnChart df name c yl ti co) := by
  unfold create_bar_graph
  rw [h]

theorem mkColumnChart_values (df : DataFrame) (name mc yl ti co : String) :
    (mkColumnChart df name mc yl ti co).values = df.colValues mc := rfl

theorem runVisualizer_charts (df : DataFrame) :
    (runVisualizer df).charts =
      if truthy (find_column df.columns ["execution", "time", "exec"])
          || truthy (find_column df.columns ["delay"])
          || truthy (find_column df.columns ["energy", "power"])
          || truthy (find_column df.columns ["network", "usage", "bandwidth"]) then
        (if truthy (find_column df.columns ["execution", "time", "exec"]) then
          (create_bar_graph df "Execution Time" ["execution", "time"]
            "Execution Time (ms)" "Execution Time Comparison" "steelblue").toList
        else []) ++
        ((if truthy (find_column df.columns ["delay"]) then
          (create_bar_graph df "Delay" ["delay"]
            "Delay (ms)" "Delay Comparison" "green").toList
        else []) ++
        ((if truthy (find_column df.columns ["energy", "power"]) then
          (create_bar_graph df "Energy" ["energy", "power"]
            "Energy Consumption (J)" "Energy Consumption Comparison" "purple").toList
        else []) ++
        (if truthy (find_column df.columns ["network", "usage", "bandwidth"]) then
          (create_bar_graph df "Network Usage" ["network", "usage"]
            "Network Usage (Bytes)" "Network Usage Comparison" "orange").toList
        else []))) 
      else (create_graphs_from_row_structure df).1 := by
  simp only [runVisualizer]
  split <;> rfl

/-- Counterexample to claim C2: for the one-column dataset `["Exec"]` the
top-level classification detects an Execution Time column (keyword `exec`),
yet no chart at all is rendered, because `create_bar_graph` re-resolves the
column with the shorter keyword list `["execution", "time"]`, which matches
nothing. -/
theorem detection_render_keyword_mismatch_cex :
    find_column dfExec.columns ["execution", "time", "exec"] = some "Exec"
    ∧ truthy (find_column dfExec.columns ["execution", "time", "exec"]) = true
    ∧ (runVisualizer dfExec).charts = [] := by decide

/-- Claim C2 amended: when the top-level classification detects a metric,
`create_bar_graph` is invoked for it in metric order, but it re-resolves the
column with its own keyword list (`["execution", "time"]` for Execution
Time, `["delay"]`, `["energy", "power"]`, `["network", "usage"]`); the chart,
rendered only when that re-resolution succeeds, plots the full ordered value
sequence of the re-resolved column — which for Execution Time and Network
Usage may differ from (or not exist for) the detected column. -/
theorem render_uses_own_keyword_list (df : DataFrame) :
    (∀ c, find_column df.columns ["execution", "time"] = some c →
        create_bar_graph df "Execution Time" ["execution", "time"]
            "Execution Time (ms)" "Execution Time Comparison" "steelblue"
          = some (mkColumnChart df "Execution Time" c
              "Execution Time (ms)" "Execution Time Comparison" "steelblue")
        ∧ (mkColumnChart df "Execution Time" c
            "Execution Time (ms)" "Execution Time Comparison" "steelblue").values
          = df.colValues c)
    ∧ (∀ c, find_column df.columns ["delay"] = some c →
        create_bar_graph df "Delay" ["delay"] "Delay (ms)" "Delay Comparison" "green"
          = some (mkColumnChart df "Delay" c "Delay (ms)" "Delay Comparison" "green")
        ∧ (mkColumnChart df "Delay" c "Delay (ms)" "Delay Comparison" "green").values
          = df.colValues c)
    ∧ (∀ c, find_column df.columns ["energy", "power"] = some c →
        create_bar_graph df "Energy" ["energy", "power"]
            "Energy Consumption (J)" "Energy Consumption Comparison" "purple"
          = some (mkColumnChart df "Energy" c
              "Energy Consumption (J)" "Energy Consumption Comparison" "purple")
        ∧ (mkColumnChart df "Energy" c
            "Energy Consumption (J)" "Energy Consumption Comparison" "purple").values
          = df.colValues c)
    ∧ (∀ c, find_column df.columns ["network", "usage"] = some c →
        create_bar_graph df "Network Usage" ["network", "usage"]
            "Network Usage (Bytes)" "Network Usage Comparison" "orange"
          = some (mkColumnChart df "Network Usage" c
              "Network Usage (Bytes)" "Network Usage Comparison" "orange")
        ∧ (mkColumnChart df "Network Usage" c
            "Network Usage (Bytes)" "Network Usage Comparison" "orange").values
          = df.colValues c)
    ∧ (truthy (find_column df.columns ["execution", "time", "exec"]) = true →
        ∃ rest, (runVisualizer df).charts
          = (create_bar_graph df "Execution Time" ["execution", "time"]
              "Execution Time (ms)" "Execution Time Comparison" "steelblue").toList ++ rest)
    ∧ (truthy (find_column df.columns ["delay"]) = true →
        ∃ front rest, (runVisualizer df).charts
          = front ++ ((create_bar_graph df "Delay" ["delay"]
              "Delay (ms)" "Delay Comparison" "green").toList ++ rest))
    ∧ (truthy (find_column df.columns ["energy", "power"]) = true →
        ∃ front rest, (runVisualizer df).charts
          = front ++ ((create_bar_graph df "Energy" ["energy", "power"]
              "Energy Consumption (J)" "Energy Consumption Comparison" "purple").toList ++ rest))
    ∧ (truthy (find_column df.columns ["network", "usage", "bandwidth"]) = true →
        ∃ front, (runVisualizer df).charts
          = front ++ (create_bar_graph df "Network Usage" ["network", "usage"]
              "Network Usage (Bytes)" "Network Usage Comparison" "orange").toList) := by
  refine ⟨fun c h => ⟨create_bar_graph_some df _ _ _ _ _ c h, rfl⟩,
    fun c h => ⟨create_bar_graph_some df _ _ _ _ _ c h, rfl⟩,
    fun c h => ⟨create_bar_graph_some df _ _ _ _ _ c h, rfl⟩,
    fun c h => ⟨create_bar_graph_some df _ _ _ _ _ c h, rfl⟩,
    ?_, ?_, ?_, ?_⟩
  · intro h
    rw [runVisualizer_charts, if_pos (by simp [h]), if_pos h]
    exact ⟨_, rfl⟩
  · intro h
    rw [runVisualizer_charts, if_pos (by simp [h]), if_pos h]
    exact ⟨_, _, rfl⟩
  · intro h
    rw [runVisualizer_charts, if_pos (by simp [h]), if_pos h]
    exact ⟨_, _, (List.append_assoc _ _ _).symm⟩
  · intro h
    rw [runVisualizer_charts, if_pos (by simp [h]), if_pos h]
    refine ⟨(if truthy (find_column df.columns ["execution", "time", "exec"]) then
        (create_bar_graph df "Execution Time" ["execution", "time"]
          "Execution Time (ms)" "Execution Time Comparison" "steelblue").toList
      else []) ++
      ((if truthy (find_column df.columns ["delay"]) then
        (create_bar_graph df "Delay" ["delay"] "Delay (ms)" "Delay Comparison" "green").toList
      else []) ++
      (if truthy (find_column df.columns ["energy", "power"]) then
        (create_bar_graph df "Energy" ["energy", "power"]
          "Energy Consumption (J)" "Energy Consumption Comparison" "purple").toList
      else [])), ?_⟩
    rw [List.append_assoc, List.append_assoc]

/-- Witness for the amended C2 at the worked one-row dataset. -/
theorem render_uses_own_keyword_list_witness :
    create_bar_graph dfFull "Execution Time" ["execution", "time"]
        "Execution Time (ms)" "Execution Time Comparison" "steelblue"
      = some (mkColumnChart dfFull "Execution Time" "Execution Time"
          "Execution Time (ms)" "Execution Time Comparison" "steelblue")
    ∧ (mkColumnChart dfFull "Execution Time" "Execution Time"
        "Execution Time (ms)" "Execution Time Comparison" "steelblue").values
      = dfFull.colValues "Execution Time" :=
  (render_uses_own_keyword_list dfFull).1 "Execution Time" (by decide)

/-- Counterexample to claim C3: in `dfRowsCE` the rows `Delay A` (series
`[1]`) and `Delay B` (series `[2]`) both match the Delay keywords; the
single rendered chart carries `[2]` — the last matching row — not the first
matching row's `[1]`. -/
theorem row_fallback_last_row_cex :
    rowMatches [Cell.str "Delay A", Cell.num 1] ["delay"] = true
    ∧ numericSeries ([Cell.str "Delay A", Cell.num 1].drop 1) = [1]
    ∧ (runVisualizer dfRowsCE).charts.map Chart.values = [[Cell.num 2]]
    ∧ [[Cell.num (2 : ℚ)]] ≠ [[Cell.num 1]] := by decide

/-- Claim C3 amended: in the row-based fallback, when several rows match the
same metric's keyword set the chart for that metric uses the numeric series
of the *last* matching row (in row order) whose extracted series is
nonempty — each later such row overwrites the dictionary entry — and each
metric is still charted at most once per run. -/
theorem row_fallback_last_nonempty_match (df : DataFrame) (name : String)
    (kws : List String) (hmem : (name, kws) ∈ metric_keywords) :
    lookupA name (computeMetricRows df) = lastGoodSeries kws df.rows
    ∧ ((create_graphs_from_row_structure df).1.map Chart.metric_name).Nodup
    ∧ (∀ v, lookupA name (computeMetricRows df) = some v →
        ∃ ch ∈ (create_graphs_from_row_structure df).1,
          ch.metric_name = name ∧ ch.values = v.map Cell.num) := by
  have h1 : (create_graphs_from_row_structure df).1
      = (computeMetricRows df).map mkRowChart := rfl
  refine ⟨lookupA_computeMetricRows df name kws hmem, ?_, ?_⟩
  · rw [h1, List.map_map]
    have h2 : (Chart.metric_name ∘ mkRowChart) = Prod.fst := by
      funext p
      rfl
    rw [h2]
    exact computeMetricRows_keysNodup df
  · intro v hv
    have hmem2 : (name, v) ∈ computeMetricRows df := lookupA_mem name _ v hv
    refine ⟨mkRowChart (name, v), ?_, rfl, rfl⟩
    rw [h1]
    exact List.mem_map_of_mem mkRowChart hmem2

/-- Witness for the amended C3 at the two-Delay-row dataset: the Delay entry
is the last matching row's series `[2]`. -/
theorem row_fallback_last_nonempty_match_witness :
    lookupA "Delay" (computeMetricRows dfRowsCE) = lastGoodSeries ["delay"] dfRowsCE.rows
    ∧ lastGoodSeries ["delay"] dfRowsCE.rows = some [2] :=
  ⟨(row_fallback_last_nonempty_match dfRowsCE "Delay" ["delay"] (by decide)).1, by decide⟩

theorem create_bar_graph_chart_props (df : DataFrame) (name : String) (kws : List String)
    (yl ti co : String) (ch : Chart)
    (hch : ch ∈ (create_bar_graph df name kws yl ti co).toList) :
    ch.metric_name = name ∧ ch.output_file = outputFileName name := by
  unfold create_bar_graph at hch
  cases hfc : find_column df.columns kws with
  | none =>
      rw [hfc] at hch
      simp at hch
  | some mc =>
      rw [hfc] at hch
      rcases List.mem_singleton.mp hch with rfl
      exact ⟨rfl, rfl⟩

/-- Counterexample to claim C4: the Energy metric's display name in the code
is `"Energy"`, so its chart is written to `energy_graph.png`, not
`energy_consumption_graph.png`. -/
theorem energy_output_name_cex :
    (runVisualizer dfFull).charts.map Chart.output_file
      = ["execution_time_graph.png", "delay_graph.png", "energy_graph.png",
         "network_usage_graph.png"]
    ∧ outputFileName "Energy" = "energy_graph.png"
    ∧ "energy_graph.png" ≠ "energy_consumption_graph.png" := by decide

/-- Claim C4 amended: every rendered chart is written to a PNG named after
the metric's display name with spaces replaced by underscores, lower-cased,
suffixed `_graph.png`; the four possible names are
`execution_time_graph.png`, `delay_graph.png`, `energy_graph.png` (the
Energy metric's display name is `"Energy"`, not `"Energy Consumption"`), and
`network_usage_graph.png`. -/
theorem chart_output_file_names (df : DataFrame) :
    ∀ ch ∈ (runVisualizer df).charts,
      ch.output_file = outputFileName ch.metric_name
      ∧ ch.metric_name ∈ metricNames
      ∧ ch.output_file ∈ ["execution_time_graph.png", "delay_graph.png",
          "energy_graph.png", "network_usage_graph.png"] := by
  intro ch hch
  rw [runVisualizer_charts] at hch
  split at hch
  · simp only [List.mem_append] at hch
    rcases hch with h | h | h | h <;> split at h <;>
      first
      | (obtain ⟨hname, hfile⟩ := create_bar_graph_chart_props _ _ _ _ _ _ _ h
         refine ⟨?_, ?_, ?_⟩
         · rw [hfile, hname]
         · rw [hname]
           decide
         · rw [hfile]
           decide)
      | simp at h
  · have h1 : (create_graphs_from_row_structure df).1
        = (computeMetricRows df).map mkRowChart := rfl
    rw [h1] at hch
    obtain ⟨p, hp, rfl⟩ := List.mem_map.mp hch
    have hkey : p.1 ∈ metricNames := computeMetricRows_keys df p hp
    refine ⟨rfl, hkey, ?_⟩
    have hout : (mkRowChart p).output_file = outputFileName p.1 := rfl
    rw [hout]
    simp only [metricNames, List.mem_cons, List.not_mem_nil, or_false] at hkey
    rcases hkey with h | h | h | h <;> rw [h] <;> decide

/-- Witness for the amended C4: the Delay chart of the row-based dataset. -/
theorem chart_output_file_names_witness :
    (mkRowChart ("Delay", [2])).output_file
        = outputFileName (mkRowChart ("Delay", [2])).metric_name
    ∧ (mkRowChart ("Delay", [2])).metric_name ∈ metricNames
    ∧ (mkRowChart ("Delay", [2])).output_file ∈ ["execution_time_graph.png",
        "delay_graph.png", "energy_graph.png", "network_usage_graph.png"] :=
  chart_output_file_names dfRowsCE (mkRowChart ("Delay", [2]))
    (by
      have h : (runVisualizer dfRowsCE).charts = [mkRowChart ("Delay", [2])] := by decide
      rw [h]
      exact List.mem_singleton_self _)

theorem digit_char_ofNat (k : Nat) (hk : k < 10) : (Char.ofNat (48 + k)).isDigit = true := by
  interval_cases k <;> decide

/-- Counterexample to claim C9: the worked example's metric columns hold
only integers, so pandas loads them as int64 columns whose values are
`numpy.int64`; those fail line 106's `isinstance(val, (int, float))` check,
and each bar is annotated with the plain string `str(val)` — `"100"`, not
the two-decimal `"100.00"` the claim asserts. -/
theorem int_column_value_text_cex :
    annotate (Cell.intv 100) = "100"
    ∧ (runVisualizer dfFull).charts.map Chart.valueTexts
        = [["100"], ["50"], ["200"], ["1000"]]
    ∧ (["100"] : List String) ≠ ["100.00"] := by decide

/-- Claim C9 amended: every bar's text is the bar's value formatted to
exactly two decimal places when the value passes line 106's
`isinstance(val, (int, float))` check — i.e. when the cell is float-typed,
since `numpy.float64` subclasses `float` while the `numpy.int64` values of
integer columns subclass neither `int` nor `float` — and the value's plain
string form otherwise (the two-decimal form provably ends in a point
followed by exactly two digit characters).  In particular the worked
one-row dataset `[Config1, 100, 50, 200, 1000]` loads as integer columns
and its four bars are annotated `100`, `50`, `200`, `1000`, while its
float-valued variant is annotated `100.00`, `50.00`, `200.00`, `1000.00`;
in both cases each chart's single bar is labelled `Config1`. -/
theorem bar_value_text_format :
    (∀ q : ℚ, annotate (Cell.num q) = formatTwoDec q)
    ∧ (∀ n : ℤ, annotate (Cell.intv n) = intStr n)
    ∧ (∀ s : String, annotate (Cell.str s) = s)
    ∧ (∀ q : ℚ, ∃ (pre : String) (d₁ d₂ : Char),
        formatTwoDec q = pre ++ "." ++ String.mk [d₁, d₂]
        ∧ d₁.isDigit = true ∧ d₂.isDigit = true)
    ∧ (runVisualizer dfFull).charts.map Chart.valueTexts
        = [["100"], ["50"], ["200"], ["1000"]]
    ∧ (runVisualizer dfFullFloat).charts.map Chart.valueTexts
        = [["100.00"], ["50.00"], ["200.00"], ["1000.00"]]
    ∧ (runVisualizer dfFull).charts.map Chart.labels
        = [[Cell.str "Config1"], [Cell.str "Config1"],
           [Cell.str "Config1"], [Cell.str "Config1"]]
    ∧ (runVisualizer dfFullFloat).charts.map Chart.labels
        = [[Cell.str "Config1"], [Cell.str "Config1"],
           [Cell.str "Config1"], [Cell.str "Config1"]] := by
  refine ⟨fun q => rfl, fun n => rfl, fun s => rfl, ?_,
    by decide, by decide, by decide, by decide⟩
  intro q
  refine ⟨(if roundHalfEven (q * 100) < 0 then "-" else "")
      ++ toString ((roundHalfEven (q * 100)).natAbs / 100),
    Char.ofNat (48 + (roundHalfEven (q * 100)).natAbs % 100 / 10),
    Char.ofNat (48 + (roundHalfEven (q * 100)).natAbs % 100 % 10), rfl, ?_, ?_⟩
  · exact digit_char_ofNat _ (by omega)
  · exact digit_char_ofNat _ (by omega)

theorem lookupA_eq_some_of_mem (m : List (String × List ℚ)) (q : String × List ℚ)
    (hq : q ∈ m) (hnodup : (m.map Prod.fst).Nodup) : lookupA q.1 m = some q.2 := by
  induction m with
  | nil => simp at hq
  | cons p r ih =>
      rcases List.mem_cons.mp hq with rfl | hq2
      · rw [lookupA, if_pos (beq_iff_eq.mpr rfl)]
      · have hne : p.1 ≠ q.1 := by
          intro hc
          rw [List.map_cons, List.nodup_cons] at hnodup
          exact hnodup.1 (hc ▸ List.mem_map_of_mem Prod.fst hq2)
        rw [lookupA, if_neg (by rw [beq_eq_false_iff_ne.mpr hne]; simp)]
        exact ih hq2 (by
          rw [List.map_cons, List.nodup_cons] at hnodup
          exact hnodup.2)

theorem exists_good_row_of_lookup_some (df : DataFrame) (name : String) (kws : List String)
    (hmem : (name, kws) ∈ metric_keywords) (v : List ℚ)
    (hsome : lookupA name (computeMetricRows df) = some v) :
    ∃ row ∈ df.rows, rowMatches row kws = true ∧ numericSeries (row.drop 1) ≠ [] := by
  rw [lookupA_computeMetricRows df name kws hmem] at hsome
  unfold lastGoodSeries at hsome
  cases hf : df.rows.reverse.find? (goodRow kws) with
  | none =>
      rw [hf] at hsome
      simp at hsome
  | some r =>
      have hg : goodRow kws r = true := List.find?_some hf
      have hrm : r ∈ df.rows := List.mem_reverse.mp (List.mem_of_find?_eq_some hf)
      have hmatch : rowMatches r kws = true := by
        have h2 := hg
        unfold goodRow at h2
        rw [Bool.and_eq_true] at h2
        exact h2.1
      refine ⟨r, hrm, hmatch, fun hc => ?_⟩
      unfold goodRow at hg
      rw [hc] at hg
      simp [hmatch] at hg

/-- Claim C10: a row matching a metric's keywords whose data cells all fail
numeric coercion yields an empty series and does not populate the metric:
when every matching row is such a row the metric gets no dictionary entry
and no chart, and the fallback's `True` result can only come from some row
with a nonempty extracted series. -/
theorem empty_series_not_populated (df : DataFrame) (name : String) (kws : List String)
    (hmem : (name, kws) ∈ metric_keywords)
    (h : ∀ row ∈ df.rows, rowMatches row kws = true → numericSeries (row.drop 1) = []) :
    lookupA name (computeMetricRows df) = none
    ∧ (∀ ch ∈ (create_graphs_from_row_structure df).1, ch.metric_name ≠ name)
    ∧ ((create_graphs_from_row_structure df).2 = true →
        ∃ row ∈ df.rows, ∃ p ∈ metric_keywords,
          rowMatches row p.2 = true ∧ numericSeries (row.drop 1) ≠ []) := by
  have hnone : lookupA name (computeMetricRows df) = none := by
    rw [lookupA_computeMetricRows df name kws hmem]
    unfold lastGoodSeries
    rw [List.find?_eq_none.mpr ?_]
    · rfl
    · intro x hx
      have hxr : x ∈ df.rows := List.mem_reverse.mp hx
      unfold goodRow
      cases hm : rowMatches x kws with
      | false => simp
      | true =>
          have hser := h x hxr hm
          simp only [hm, Bool.true_and, Bool.not_eq_true, Bool.not_eq_false]
          rw [hser]
          rfl
  refine ⟨hnone, ?_, ?_⟩
  · intro ch hch
    have h1 : (create_graphs_from_row_structure df).1
        = (computeMetricRows df).map mkRowChart := rfl
    rw [h1] at hch
    obtain ⟨p, hp, rfl⟩ := List.mem_map.mp hch
    exact (lookupA_eq_none_iff name _).mp hnone p hp
  · intro htrue
    have hmr : computeMetricRows df ≠ [] := by
      intro hc
      unfold create_graphs_from_row_structure at htrue
      rw [hc] at htrue
      simp at htrue
    obtain ⟨q, hq⟩ := List.exists_mem_of_ne_nil _ hmr
    have hkey : q.1 ∈ metricNames := computeMetricRows_keys df q hq
    have hsome : lookupA q.1 (computeMetricRows df) = some q.2 :=
      lookupA_eq_some_of_mem _ q hq (computeMetricRows_keysNodup df)
    simp only [metricNames, List.mem_cons, List.not_mem_nil, or_false] at hkey
    rcases hkey with hk | hk | hk | hk <;> rw [hk] at hsome
    · obtain ⟨row, hr, hm2, hne⟩ := exists_good_row_of_lookup_some df "Execution Time"
        ["execution", "time", "exec"] (by decide) q.2 hsome
      exact ⟨row, hr, ("Execution Time", ["execution", "time", "exec"]), by decide, hm2, hne⟩
    · obtain ⟨row, hr, hm2, hne⟩ := exists_good_row_of_lookup_some df "Delay"
        ["delay"] (by decide) q.2 hsome
      exact ⟨row, hr, ("Delay", ["delay"]), by decide, hm2, hne⟩
    · obtain ⟨row, hr, hm2, hne⟩ := exists_good_row_of_lookup_some df "Energy"
        ["energy", "power"] (by decide) q.2 hsome
      exact ⟨row, hr, ("Energy", ["energy", "power"]), by decide, hm2, hne⟩
    · obtain ⟨row, hr, hm2, hne⟩ := exists_good_row_of_lookup_some df "Network Usage"
        ["network", "usage", "bandwidth"] (by decide) q.2 hsome
      exact ⟨row, hr, ("Network Usage", ["network", "usage", "bandwidth"]), by decide, hm2, hne⟩

/-- Witness for C10: one Delay row whose only data cell is the non-numeric
`"N/A"`; the Delay metric is not populated and no chart is named Delay. -/
theorem empty_series_not_populated_witness :
    lookupA "Delay" (computeMetricRows dfEmptySeries) = none
    ∧ ∀ ch ∈ (create_graphs_from_row_structure dfEmptySeries).1, ch.metric_name ≠ "Delay" := by
  have h := empty_series_not_populated dfEmptySeries "Delay" ["delay"] (by decide) (by decide)
  exact ⟨h.1, h.2.1⟩
